import Mathlib

/-!
Verification of the restaurant-ordering load client (`src/client/client.py`)
against its natural-language specification.

The development shallow-embeds the client:
* Python JSON-able values (`PyVal`), Python truthiness, and `json.dumps`;
* `send_request` (client.py lines 6-15): fresh connection, a fixed
  JSON content-type header dict, truthiness-guarded serialization, one
  request/response exchange;
* the three random request builders `add_random_order`,
  `query_random_orders`, `remove_random_item` (lines 17-40), with
  `random.randint(a, b)` modelled on an explicit uniform draw;
* the main block (lines 43-54): three batches on a
  `ThreadPoolExecutor(max_workers=20)` with a `concurrent.futures.wait`
  barrier after each batch, modelled as a transition system over
  submit/start/finish/wait events.
-/

namespace Resto

/-- Python JSON-able values, as used by client.py (dict/list/str/int/None).
Dicts are association lists in insertion order, matching CPython dicts. -/
inductive PyVal where
  | vnone : PyVal
  | vint (n : Int) : PyVal
  | vstr (s : String) : PyVal
  | vlist (xs : List PyVal) : PyVal
  | vdict (kvs : List (String × PyVal)) : PyVal

/-- Python truthiness (`if body:` on line 10): None, 0, the empty string and
empty containers are falsy; everything else is truthy. -/
def pyTruthy : PyVal → Bool
  | .vnone => false
  | .vint n => decide (n ≠ 0)
  | .vstr s => decide (s ≠ "")
  | .vlist [] => false
  | .vlist (_ :: _) => true
  | .vdict [] => false
  | .vdict (_ :: _) => true

mutual

/-- CPython `json.dumps` with default separators: items joined by a comma and
a space, keys and values joined by a colon and a space. -/
def jsonDumps : PyVal → String
  | .vnone => "null"
  | .vint n => toString n
  | .vstr s => "\"" ++ s ++ "\""
  | .vlist xs => "[" ++ jsonDumpsList xs ++ "]"
  | .vdict kvs => "\x7b" ++ jsonDumpsDict kvs ++ "\x7d"

/-- Comma-space-joined serialization of a JSON array's elements. -/
def jsonDumpsList : List PyVal → String
  | [] => ""
  | [x] => jsonDumps x
  | x :: y :: rest => jsonDumps x ++ ", " ++ jsonDumpsList (y :: rest)

/-- Comma-space-joined serialization of a JSON object's key/value pairs. -/
def jsonDumpsDict : List (String × PyVal) → String
  | [] => ""
  | [(k, v)] => "\"" ++ k ++ "\": " ++ jsonDumps v
  | (k, v) :: y :: rest => "\"" ++ k ++ "\": " ++ jsonDumps v ++ ", " ++ jsonDumpsDict (y :: rest)

end

/-- The HTTP request an invocation puts on the wire. `bodyPayload = none`
means no body bytes are transmitted. -/
structure Request where
  method : String
  path : String
  bodyPayload : Option String
  headers : List (String × String)
deriving DecidableEq, Repr

/-- Line 10-11 of client.py: `if body: body = json.dumps(body)` — the value
that reaches `connection.request` is the JSON text when the argument is
truthy, and the untouched argument when it is falsy. -/
def serializedBody (body : PyVal) : PyVal :=
  if pyTruthy body then .vstr (jsonDumps body) else body

/-- Body transmission of CPython `http.client` for the value handed to
`connection.request` (line 13):
* `None`: no body is sent;
* a `str`: its bytes are the body; the empty string yields a zero-length
  body (Content-Length 0, no payload bytes);
* an `int`: `TypeError` — an int is neither bytes-like, a str, a file-like
  object, nor iterable, so `_send_output` raises before any body is sent;
* a `list` or `dict`: treated as an iterable of chunks; the empty iterable
  yields no payload bytes, while a non-empty one holds `PyVal` elements
  (never bytes), and concatenating the chunked-encoding prefix bytes with a
  non-bytes chunk raises `TypeError`. -/
def wireBody : PyVal → Except String (Option String)
  | .vnone => .ok none
  | .vstr s => .ok (if s = "" then none else some s)
  | .vint _ => .error "TypeError: message_body should be a bytes-like object or an iterable"
  | .vlist [] => .ok none
  | .vlist (_ :: _) => .error "TypeError: a bytes-like object is required"
  | .vdict [] => .ok none
  | .vdict (_ :: _) => .error "TypeError: a bytes-like object is required"

/-- Embedding of `send_request` (client.py lines 6-15). A fresh
`HTTPConnection` is created per call; the header dict
`\x7b"Content-type": "application/json"\x7d` is built unconditionally and always
passed to `connection.request`; the body is serialized when truthy and handed
over raw when falsy. The result is the request as sent on the wire, or the
exception text when `connection.request` raises. In the Python source the
`body` parameter defaults to `None` (`PyVal.vnone` here); callers that omit it
are embedded passing `PyVal.vnone` explicitly. -/
def send_request (method path : String) (body : PyVal) : Except String Request :=
  match wireBody (serializedBody body) with
  | .error e => .error e
  | .ok payload =>
      .ok { method := method
            path := path
            bodyPayload := payload
            headers := [("Content-type", "application/json")] }

/-- CPython `random.randint a b`: a uniform integer in `[a, b]` inclusive,
modelled on an explicit draw `r`: each value of `[a, b]` is obtained by
exactly one residue class of `r` modulo `b - a + 1`, which mirrors a uniform
integer when the draw is uniform. -/
def randint (a b r : Nat) : Nat := a + r % (b - a + 1)

/-- Line 18 of client.py: the add-order item identifier, `randint(1, 21)`. -/
def add_random_order_item (r : Nat) : Nat := randint 1 21 r

/-- Line 19 of client.py: the add-order table identifier, `randint(1, 20)`. -/
def add_random_order_table (r : Nat) : Nat := randint 1 20 r

/-- Lines 21-24 of client.py: the order payload
`\x7b"items": [item], "table_id": table_number\x7d`. -/
def add_order_data (r1 r2 : Nat) : PyVal :=
  .vdict [("items", .vlist [.vint (add_random_order_item r1)]),
          ("table_id", .vint (add_random_order_table r2))]

/-- Line 26 of client.py: `send_request("POST", "/orders", body=order_data)`. -/
def add_random_order_request (r1 r2 : Nat) : Except String Request :=
  send_request "POST" "/orders" (add_order_data r1 r2)

/-- Line 31 of client.py: the query table identifier, `randint(1, 99)`. -/
def query_random_orders_table (r : Nat) : Nat := randint 1 99 r

/-- Line 32 of client.py: `send_request("GET", f"/orders/\x7btable_number\x7d")`,
with the body argument left at its `None` default. -/
def query_random_orders_request (r : Nat) : Except String Request :=
  send_request "GET" ("/orders/" ++ toString (query_random_orders_table r)) .vnone

/-- Line 36 of client.py: the remove-item table identifier, `randint(1, 99)`. -/
def remove_random_item_table (r : Nat) : Nat := randint 1 99 r

/-- Line 37 of client.py: the remove-item item identifier, `randint(1, 21)`. -/
def remove_random_item_item (r : Nat) : Nat := randint 1 21 r

/-- Line 39 of client.py: `send_request("DELETE", f"/orders/\x7btable_number\x7d/\x7bitem\x7d")`,
with the body argument left at its `None` default. -/
def remove_random_item_request (r1 r2 : Nat) : Except String Request :=
  send_request "DELETE"
    ("/orders/" ++ toString (remove_random_item_table r1) ++ "/" ++
      toString (remove_random_item_item r2)) .vnone

/-- Lines 45, 49, 53 of client.py: each batch submits `randint(10, 20)`
invocations. -/
def batchSize (r : Nat) : Nat := randint 10 20 r

theorem jsonDumps_vdict_ne_empty (kvs : List (String × PyVal)) :
    jsonDumps (PyVal.vdict kvs) ≠ "" := by
  intro h
  have hl := congrArg String.length h
  rw [show jsonDumps (PyVal.vdict kvs) = "\x7b" ++ jsonDumpsDict kvs ++ "\x7d" from rfl] at hl
  rw [String.length_append, String.length_append] at hl
  have h1 : ("\x7b" : String).length = 1 := rfl
  have h2 : ("\x7d" : String).length = 1 := rfl
  have h0 : ("" : String).length = 0 := rfl
  omega

theorem add_random_order_request_eq (r1 r2 : Nat) :
    add_random_order_request r1 r2 =
      Except.ok
        { method := "POST", path := "/orders",
          bodyPayload := some (jsonDumps (add_order_data r1 r2)),
          headers := [("Content-type", "application/json")] } := by
  unfold add_random_order_request send_request
  have hne : jsonDumps (add_order_data r1 r2) ≠ "" := jsonDumps_vdict_ne_empty _
  rw [show serializedBody (add_order_data r1 r2)
        = PyVal.vstr (jsonDumps (add_order_data r1 r2)) from rfl]
  rw [show wireBody (PyVal.vstr (jsonDumps (add_order_data r1 r2)))
        = Except.ok (if jsonDumps (add_order_data r1 r2) = ""
            then none else some (jsonDumps (add_order_data r1 r2))) from rfl]
  rw [if_neg hne]

/-- Claim C3: each phase submits `randint(10, 20)` invocations — an integer in
the inclusive range `[10, 20]`; every value of the range is attained, each by
exactly one residue of the draw, mirroring the uniform distribution of
`random.randint`. -/
theorem c3_batch_size_in_10_20 (r v w : Nat) (hv1 : 10 ≤ v) (hv2 : v ≤ 20)
    (hw : w < 11) :
    (10 ≤ batchSize r ∧ batchSize r ≤ 20) ∧ batchSize (v - 10) = v ∧
      batchSize w = 10 + w := by
  unfold batchSize randint
  refine ⟨⟨?_, ?_⟩, ?_, ?_⟩ <;> omega

/-- Instance of `c3_batch_size_in_10_20` at concrete draws. -/
theorem c3_batch_size_in_10_20_witness :
    (10 ≤ batchSize 5 ∧ batchSize 5 ≤ 20) ∧ batchSize (20 - 10) = 20 ∧
      batchSize 3 = 10 + 3 :=
  c3_batch_size_in_10_20 5 20 3 (by decide) (by decide) (by decide)

/-- Claim C4: the add-order item identifier (`randint(1, 21)`, line 18) lies in
`[1, 21]` and the add-order table identifier (`randint(1, 20)`, line 19) lies
in `[1, 20]`; both bounds of both ranges are attained by concrete draws. -/
theorem c4_add_order_ranges (r1 r2 : Nat) :
    (1 ≤ add_random_order_item r1 ∧ add_random_order_item r1 ≤ 21) ∧
    (1 ≤ add_random_order_table r2 ∧ add_random_order_table r2 ≤ 20) ∧
    add_random_order_item 0 = 1 ∧ add_random_order_item 20 = 21 ∧
    add_random_order_table 0 = 1 ∧ add_random_order_table 19 = 20 := by
  unfold add_random_order_item add_random_order_table randint
  refine ⟨⟨?_, ?_⟩, ⟨?_, ?_⟩, ?_, ?_, ?_, ?_⟩ <;> omega

/-- Claim C5: the query table identifier (`randint(1, 99)`, line 31) and the
remove table identifier (`randint(1, 99)`, line 36) lie in `[1, 99]`; the
remove item identifier (`randint(1, 21)`, line 37) lies in `[1, 21]`. -/
theorem c5_query_remove_ranges (r q1 q2 : Nat) :
    (1 ≤ query_random_orders_table r ∧ query_random_orders_table r ≤ 99) ∧
    (1 ≤ remove_random_item_table q1 ∧ remove_random_item_table q1 ≤ 99) ∧
    (1 ≤ remove_random_item_item q2 ∧ remove_random_item_item q2 ≤ 21) := by
  unfold query_random_orders_table remove_random_item_table
    remove_random_item_item randint
  refine ⟨⟨?_, ?_⟩, ⟨?_, ?_⟩, ?_, ?_⟩ <;> omega

/-- Claim C6: every add-order invocation sends a POST to the fixed path
`/orders` whose JSON body is exactly
`\x7b"items": [i], "table_id": t\x7d` with a single-element items list; every
query invocation sends a bodiless GET to `/orders/t`; every remove invocation
sends a bodiless DELETE to `/orders/t/i`. -/
theorem c6_request_shapes (r1 r2 q d1 d2 : Nat) :
    add_random_order_request r1 r2 =
      Except.ok
        { method := "POST", path := "/orders",
          bodyPayload := some (jsonDumps (PyVal.vdict
            [("items", PyVal.vlist [PyVal.vint (add_random_order_item r1)]),
             ("table_id", PyVal.vint (add_random_order_table r2))])),
          headers := [("Content-type", "application/json")] } ∧
    query_random_orders_request q =
      Except.ok
        { method := "GET",
          path := "/orders/" ++ toString (query_random_orders_table q),
          bodyPayload := none,
          headers := [("Content-type", "application/json")] } ∧
    remove_random_item_request d1 d2 =
      Except.ok
        { method := "DELETE",
          path := "/orders/" ++ toString (remove_random_item_table d1) ++ "/" ++
            toString (remove_random_item_item d2),
          bodyPayload := none,
          headers := [("Content-type", "application/json")] } :=
  ⟨add_random_order_request_eq r1 r2, rfl, rfl⟩

/-- Claim C7 is false on the code: `send_request` builds the header dict
before looking at the body and passes it to `connection.request`
unconditionally (lines 8 and 13), so the bodiless GET of a query invocation
still carries the `application/json` Content-type header; the claimed
header-iff-body equivalence fails at draw 0. -/
theorem c7_counterexample :
    query_random_orders_request 0 =
      Except.ok
        { method := "GET", path := "/orders/1", bodyPayload := none,
          headers := [("Content-type", "application/json")] } ∧
    ¬ (∀ q req, query_random_orders_request q = Except.ok req →
        ((("Content-type", "application/json") ∈ req.headers) ↔
          req.bodyPayload ≠ none)) := by
  refine ⟨rfl, fun h => ?_⟩
  have h0 := h 0
    { method := "GET", path := "/orders/1", bodyPayload := none,
      headers := [("Content-type", "application/json")] } rfl
  simp at h0

/-- Claim C7 amended: every request `send_request` succeeds in sending carries
the `application/json` Content-type header, whether or not it carries a body —
in particular the bodiless GET query and DELETE remove requests carry it
exactly like the POST add-order requests. -/
theorem c7_amended_header_always (m p : String) (b : PyVal) (req : Request)
    (h : send_request m p b = Except.ok req) :
    req.headers = [("Content-type", "application/json")] := by
  unfold send_request at h
  split at h
  · exact absurd h (by simp)
  · injection h with h2
    rw [← h2]

/-- Instance of `c7_amended_header_always` at the concrete query request of
draw 0. -/
theorem c7_amended_header_always_witness :
    Request.headers
      { method := "GET", path := "/orders/1", bodyPayload := none,
        headers := [("Content-type", "application/json")] } =
      [("Content-type", "application/json")] :=
  c7_amended_header_always "GET" "/orders/1" PyVal.vnone _ rfl

/-- Claim C10 is false on the code for the falsy body `0`: line 10 does test
truthiness rather than None-ness, and `0` is indeed not JSON-serialized, but
an int handed raw to `connection.request` makes CPython `http.client` raise a
`TypeError` — no bodiless request is sent and no response is obtained. -/
theorem c10_counterexample :
    serializedBody (PyVal.vint 0) = PyVal.vint 0 ∧
    send_request "POST" "/orders" (PyVal.vint 0) =
      Except.error
        "TypeError: message_body should be a bytes-like object or an iterable" :=
  ⟨rfl, rfl⟩

/-- Claim C10 amended: `send_request` tests the body for truthiness, not for
None — a falsy body is never JSON-serialized and a truthy one always is; the
falsy bodies `None`, the empty string, the empty dict and the empty list all
yield a request with no body bytes, but the falsy int `0` raises a `TypeError`
out of `connection.request` instead of being sent bodiless. -/
theorem c10_truthiness_not_none (m p : String) (b : PyVal) :
    serializedBody b = (if pyTruthy b then PyVal.vstr (jsonDumps b) else b) ∧
    Except.map Request.bodyPayload (send_request m p PyVal.vnone) =
      Except.ok none ∧
    Except.map Request.bodyPayload (send_request m p (PyVal.vstr "")) =
      Except.ok none ∧
    Except.map Request.bodyPayload (send_request m p (PyVal.vdict [])) =
      Except.ok none ∧
    Except.map Request.bodyPayload (send_request m p (PyVal.vlist [])) =
      Except.ok none ∧
    send_request m p (PyVal.vint 0) =
      Except.error
        "TypeError: message_body should be a bytes-like object or an iterable" :=
  ⟨rfl, rfl, rfl, rfl, rfl, rfl⟩

/-- Observable effects of one invocation. `cid` is the identity of the
`HTTPConnection` object the call constructs; `HTTPConnection(...)` on line 7
allocates a fresh object on every call, so distinct invocations carry distinct
`cid`s. -/
inductive Effect where
  | openConn (cid : Nat) : Effect
  | sentRequest (cid : Nat) (req : Request) : Effect
  | gotResponse (cid : Nat) : Effect
  | readAll (cid : Nat) : Effect
  | closedConn (cid : Nat) : Effect
  | printed (line : String) : Effect
deriving DecidableEq

/-- Effect trace of one invocation body (lines 17-40): open a fresh
connection, send the one request, get the one response (`send_request`),
read it fully (`response.read()`), after which the connection is closed
(reading to end-of-stream closes the response stream, and the sole remaining
reference to the connection was dropped when `send_request` returned, so
CPython reference counting releases the socket), and print one line. When
`connection.request` raises, the exception propagates after the connection
was opened and nothing is printed. `resp` is the opaque response body the
server returns. -/
def invocationEffects (cid : Nat) (method path : String) (body : PyVal)
    (label resp : String) : List Effect :=
  match send_request method path body with
  | .error _ => [.openConn cid]
  | .ok req => [.openConn cid, .sentRequest cid req, .gotResponse cid,
      .readAll cid, .closedConn cid, .printed (label ++ resp)]

/-- Lines 17-28 of client.py: `add_random_order`. -/
def add_random_order (cid r1 r2 : Nat) (resp : String) : List Effect :=
  invocationEffects cid "POST" "/orders" (add_order_data r1 r2)
    "Add Order Response: " resp

/-- Lines 30-33 of client.py: `query_random_orders`. -/
def query_random_orders (cid r : Nat) (resp : String) : List Effect :=
  invocationEffects cid "GET"
    ("/orders/" ++ toString (query_random_orders_table r)) .vnone
    ("Query Orders for Table " ++ toString (query_random_orders_table r) ++
      " Response: ") resp

/-- Lines 35-40 of client.py: `remove_random_item`. -/
def remove_random_item (cid r1 r2 : Nat) (resp : String) : List Effect :=
  invocationEffects cid "DELETE"
    ("/orders/" ++ toString (remove_random_item_table r1) ++ "/" ++
      toString (remove_random_item_item r2)) .vnone
    "Remove Item Response: " resp

def effOpen : Effect → Bool
  | .openConn _ => true
  | _ => false

def effSend : Effect → Bool
  | .sentRequest _ _ => true
  | _ => false

def effGotResp : Effect → Bool
  | .gotResponse _ => true
  | _ => false

def effRead : Effect → Bool
  | .readAll _ => true
  | _ => false

def effClose : Effect → Bool
  | .closedConn _ => true
  | _ => false

def effPrinted : Effect → Bool
  | .printed _ => true
  | _ => false

/-- Which connection an effect acts on, if any. -/
def connOf : Effect → Option Nat
  | .openConn c => some c
  | .sentRequest c _ => some c
  | .gotResponse c => some c
  | .readAll c => some c
  | .closedConn c => some c
  | .printed _ => none

/-- An invocation trace performs exactly one round trip on the single
connection `cid`: one open, one request, one response, one full read, one
close, one printed line, and every connection-touching effect acts on `cid`
only (no other connection is ever touched, hence none is reused across
invocations, whose connections are distinct fresh objects). -/
def oneRoundTripOn (cid : Nat) (t : List Effect) : Prop :=
  t.countP effOpen = 1 ∧ t.countP effSend = 1 ∧ t.countP effGotResp = 1 ∧
  t.countP effRead = 1 ∧ t.countP effClose = 1 ∧ t.countP effPrinted = 1 ∧
  t.all (fun ef => (connOf ef).getD cid == cid) = true

theorem invocationEffects_ok (cid : Nat) (m p : String) (b : PyVal)
    (label resp : String) (req : Request) (h : send_request m p b = Except.ok req) :
    invocationEffects cid m p b label resp =
      [.openConn cid, .sentRequest cid req, .gotResponse cid,
       .readAll cid, .closedConn cid, .printed (label ++ resp)] := by
  unfold invocationEffects
  rw [h]

/-- Claim C8: every invocation performs exactly one network round trip on a
freshly opened connection of its own, reads the one response fully, closes the
connection, and prints exactly one line describing the outcome. -/
theorem c8_one_round_trip_per_invocation (cid r1 r2 q d1 d2 : Nat)
    (resp : String) :
    oneRoundTripOn cid (add_random_order cid r1 r2 resp) ∧
    oneRoundTripOn cid (query_random_orders cid q resp) ∧
    oneRoundTripOn cid (remove_random_item cid d1 d2 resp) := by
  refine ⟨?_, ?_, ?_⟩
  · rw [show add_random_order cid r1 r2 resp
          = invocationEffects cid "POST" "/orders" (add_order_data r1 r2)
              "Add Order Response: " resp from rfl,
        invocationEffects_ok cid _ _ _ _ _ _ (add_random_order_request_eq r1 r2)]
    simp [oneRoundTripOn, List.countP_cons, List.countP_nil, effOpen, effSend,
      effGotResp, effRead, effClose, effPrinted, connOf]
  · rw [show query_random_orders cid q resp
          = invocationEffects cid "GET"
              ("/orders/" ++ toString (query_random_orders_table q)) .vnone
              ("Query Orders for Table " ++ toString (query_random_orders_table q) ++
                " Response: ") resp from rfl,
        invocationEffects_ok cid "GET"
          ("/orders/" ++ toString (query_random_orders_table q)) PyVal.vnone
          ("Query Orders for Table " ++ toString (query_random_orders_table q) ++
            " Response: ") resp
          { method := "GET",
            path := "/orders/" ++ toString (query_random_orders_table q),
            bodyPayload := none,
            headers := [("Content-type", "application/json")] } rfl]
    simp [oneRoundTripOn, List.countP_cons, List.countP_nil, effOpen, effSend,
      effGotResp, effRead, effClose, effPrinted, connOf]
  · rw [show remove_random_item cid d1 d2 resp
          = invocationEffects cid "DELETE"
              ("/orders/" ++ toString (remove_random_item_table d1) ++ "/" ++
                toString (remove_random_item_item d2)) .vnone
              "Remove Item Response: " resp from rfl,
        invocationEffects_ok cid "DELETE"
          ("/orders/" ++ toString (remove_random_item_table d1) ++ "/" ++
            toString (remove_random_item_item d2)) PyVal.vnone
          "Remove Item Response: " resp
          { method := "DELETE",
            path := "/orders/" ++ toString (remove_random_item_table d1) ++ "/" ++
              toString (remove_random_item_item d2),
            bodyPayload := none,
            headers := [("Content-type", "application/json")] } rfl]
    simp [oneRoundTripOn, List.countP_cons, List.countP_nil, effOpen, effSend,
      effGotResp, effRead, effClose, effPrinted, connOf]

/-- Scheduler events of a run of the main block (client.py lines 43-54):
`submit p` is one `executor.submit(...)` of batch `p` by the main thread
(lines 45, 49, 53); `start p` is a pool worker beginning a queued invocation
of batch `p`; `finish p` is a running invocation of batch `p` completing
(successfully or not); `waitRet p` is the return of
`concurrent.futures.wait(futures)` for batch `p` (lines 46, 50, 54). -/
inductive Ev where
  | submit (p : Nat) : Ev
  | start (p : Nat) : Ev
  | finish (p : Nat) : Ev
  | waitRet (p : Nat) : Ev
deriving DecidableEq, Repr

/-- Scheduler state: `pc` is the main thread's position (working on batch
`pc` when `pc < 3`, done when `pc = 3`); `sub p`, `sta p` and `fin p` count
the submitted, started and finished invocations of batch `p`. -/
structure St where
  pc : Nat
  sub : Nat → Nat
  sta : Nat → Nat
  fin : Nat → Nat

def St.init : St :=
  { pc := 0, sub := fun _ => 0, sta := fun _ => 0, fin := fun _ => 0 }

/-- Invocations in flight: started but not yet finished, over the three
batches (the only ones the program ever submits). -/
def inflight (s : St) : Nat :=
  (s.sta 0 - s.fin 0) + (s.sta 1 - s.fin 1) + (s.sta 2 - s.fin 2)

/-- One scheduler step, translated from the main block and the documented
semantics of `concurrent.futures`:
* `submit p` — the main thread is building batch `p`'s futures list
  (`pc = p`, with `p < 3`: the program has exactly three batches) and has not
  yet submitted all `N p` of them;
* `start p` — a worker picks up a submitted, not-yet-started invocation;
  `ThreadPoolExecutor(max_workers=20)` (line 43) runs at most 20 invocations
  at any instant, so a start requires fewer than 20 in flight;
* `finish p` — a started, not-yet-finished invocation completes;
* `waitRet p` — `concurrent.futures.wait(futures)` returns only once every
  future of batch `p` is done, i.e. all `N p` submitted invocations have
  finished; the main thread then moves on to the next statement. -/
def stepOk (N : Nat → Nat) (s : St) : Ev → Option St
  | .submit p =>
      if p < 3 ∧ s.pc = p ∧ s.sub p < N p then
        some { s with sub := fun q => if q = p then s.sub p + 1 else s.sub q }
      else none
  | .start p =>
      if s.sta p < s.sub p ∧ inflight s < 20 then
        some { s with sta := fun q => if q = p then s.sta p + 1 else s.sta q }
      else none
  | .finish p =>
      if s.fin p < s.sta p then
        some { s with fin := fun q => if q = p then s.fin p + 1 else s.fin q }
      else none
  | .waitRet p =>
      if p < 3 ∧ s.pc = p ∧ s.sub p = N p ∧ s.fin p = N p then
        some { s with pc := p + 1 }
      else none

def runFrom (N : Nat → Nat) (os : Option St) (tr : List Ev) : Option St :=
  tr.foldl (fun acc e => acc.bind fun s => stepOk N s e) os

/-- Run a whole event trace from the initial state; `none` means the trace is
not a possible schedule of the program. -/
def runTrace (N : Nat → Nat) (tr : List Ev) : Option St :=
  runFrom N (some St.init) tr

/-- The trace is a possible schedule of the main block with batch sizes `N`. -/
@[reducible] def ValidTrace (N : Nat → Nat) (tr : List Ev) : Prop :=
  (runTrace N tr).isSome = true

/-- Occurrences of an event in a trace. -/
def countE : List Ev → Ev → Nat
  | [], _ => 0
  | x :: xs, e => (if x = e then 1 else 0) + countE xs e

theorem countE_append (l1 l2 : List Ev) (e : Ev) :
    countE (l1 ++ l2) e = countE l1 e + countE l2 e := by
  induction l1 with
  | nil => simp [countE]
  | cons x xs ih => simp [countE, ih]; omega

theorem count_snoc_eq (tr : List Ev) (x e : Ev) :
    countE (tr ++ [x]) e = countE tr e + (if x = e then 1 else 0) := by
  rw [countE_append]
  simp [countE]

theorem runFrom_none (N : Nat → Nat) (tr : List Ev) : runFrom N none tr = none := by
  induction tr with
  | nil => rfl
  | cons x xs ih => simpa [runFrom, List.foldl] using ih

theorem runFrom_append (N : Nat → Nat) (os : Option St) (l1 l2 : List Ev) :
    runFrom N os (l1 ++ l2) = runFrom N (runFrom N os l1) l2 :=
  List.foldl_append _ _ _ _

theorem runTrace_snoc (N : Nat → Nat) (l : List Ev) (e : Ev) :
    runTrace N (l ++ [e]) = (runTrace N l).bind fun s => stepOk N s e := by
  rw [runTrace, runFrom_append]
  rfl

/-- Reachability invariant of the scheduler: counters agree with the trace,
are monotone-bounded (`fin ≤ sta ≤ sub ≤ N` on real batches, nothing ever
submitted for a batch index ≥ 3), the main thread never passes the third
barrier, every batch before the main thread's position is fully submitted and
fully finished, nothing is submitted for a batch the main thread has not
reached, and at most 20 invocations are in flight. -/
structure Inv (N : Nat → Nat) (tr : List Ev) (s : St) : Prop where
  count_sub : ∀ p, s.sub p = countE tr (.submit p)
  count_sta : ∀ p, s.sta p = countE tr (.start p)
  count_fin : ∀ p, s.fin p = countE tr (.finish p)
  fin_le_sta : ∀ p, s.fin p ≤ s.sta p
  sta_le_sub : ∀ p, s.sta p ≤ s.sub p
  sub_le_N : ∀ p, p < 3 → s.sub p ≤ N p
  sub_ge3 : ∀ p, 3 ≤ p → s.sub p = 0
  pc_le : s.pc ≤ 3
  done_full : ∀ p, p < s.pc → s.sub p = N p ∧ s.fin p = N p
  sub_pc : ∀ p, 0 < s.sub p → p ≤ s.pc
  cap : inflight s ≤ 20

theorem inv_init (N : Nat → Nat) : Inv N [] St.init :=
  ⟨fun _ => rfl, fun _ => rfl, fun _ => rfl, fun _ => Nat.le_refl 0,
   fun _ => Nat.le_refl 0, fun _ _ => Nat.zero_le _, fun _ _ => rfl,
   Nat.zero_le 3, fun p hp => absurd hp (Nat.not_lt_zero p),
   fun _ hp => absurd hp (Nat.lt_irrefl 0), Nat.zero_le 20⟩

theorem inv_submit (N : Nat → Nat) (tr : List Ev) (s0 s1 : St) (p : Nat)
    (h0 : Inv N tr s0) (h : stepOk N s0 (.submit p) = some s1) :
    Inv N (tr ++ [Ev.submit p]) s1 := by
  simp only [stepOk] at h
  have hg : p < 3 ∧ s0.pc = p ∧ s0.sub p < N p := by
    by_contra hng
    rw [if_neg hng] at h
    exact Option.noConfusion h
  obtain ⟨hp3, hpc, hlt⟩ := hg
  rw [if_pos ⟨hp3, hpc, hlt⟩] at h
  injection h with h1
  subst h1
  refine ⟨?_, ?_, ?_, ?_, ?_, ?_, ?_, ?_, ?_, ?_, ?_⟩
  · intro q
    by_cases hqp : q = p
    · subst hqp
      simp [count_snoc_eq, h0.count_sub q]
    · simp [count_snoc_eq, hqp, Ne.symm hqp, h0.count_sub q]
  · intro q
    simp [count_snoc_eq, h0.count_sta q]
  · intro q
    simp [count_snoc_eq, h0.count_fin q]
  · intro q
    exact h0.fin_le_sta q
  · intro q
    by_cases hqp : q = p
    · subst hqp
      show s0.sta q ≤ if q = q then s0.sub q + 1 else s0.sub q
      rw [if_pos rfl]
      have := h0.sta_le_sub q
      omega
    · show s0.sta q ≤ if q = p then s0.sub p + 1 else s0.sub q
      rw [if_neg hqp]
      exact h0.sta_le_sub q
  · intro q hq3
    by_cases hqp : q = p
    · subst hqp
      show (if q = q then s0.sub q + 1 else s0.sub q) ≤ N q
      rw [if_pos rfl]
      omega
    · show (if q = p then s0.sub p + 1 else s0.sub q) ≤ N q
      rw [if_neg hqp]
      exact h0.sub_le_N q hq3
  · intro q hq3
    have hqp : q ≠ p := by omega
    show (if q = p then s0.sub p + 1 else s0.sub q) = 0
    rw [if_neg hqp]
    exact h0.sub_ge3 q hq3
  · exact h0.pc_le
  · intro q hq
    have hq2 : q < s0.pc := hq
    have hqp : q ≠ p := by omega
    refine ⟨?_, (h0.done_full q hq2).2⟩
    show (if q = p then s0.sub p + 1 else s0.sub q) = N q
    rw [if_neg hqp]
    exact (h0.done_full q hq2).1
  · intro q hq
    have hq2 : 0 < (if q = p then s0.sub p + 1 else s0.sub q) := hq
    by_cases hqp : q = p
    · show q ≤ s0.pc
      omega
    · rw [if_neg hqp] at hq2
      exact h0.sub_pc q hq2
  · exact h0.cap

theorem inv_start (N : Nat → Nat) (tr : List Ev) (s0 s1 : St) (p : Nat)
    (h0 : Inv N tr s0) (h : stepOk N s0 (.start p) = some s1) :
    Inv N (tr ++ [Ev.start p]) s1 := by
  simp only [stepOk] at h
  have hg : s0.sta p < s0.sub p ∧ inflight s0 < 20 := by
    by_contra hng
    rw [if_neg hng] at h
    exact Option.noConfusion h
  obtain ⟨hlt, hcap⟩ := hg
  have hp3 : p < 3 := by
    by_contra hge
    have h3 := h0.sub_ge3 p (by omega)
    omega
  rw [if_pos ⟨hlt, hcap⟩] at h
  injection h with h1
  subst h1
  refine ⟨?_, ?_, ?_, ?_, ?_, ?_, ?_, ?_, ?_, ?_, ?_⟩
  · intro q
    simp [count_snoc_eq, h0.count_sub q]
  · intro q
    by_cases hqp : q = p
    · subst hqp
      simp [count_snoc_eq, h0.count_sta q]
    · simp [count_snoc_eq, hqp, Ne.symm hqp, h0.count_sta q]
  · intro q
    simp [count_snoc_eq, h0.count_fin q]
  · intro q
    by_cases hqp : q = p
    · subst hqp
      show s0.fin q ≤ if q = q then s0.sta q + 1 else s0.sta q
      rw [if_pos rfl]
      have := h0.fin_le_sta q
      omega
    · show s0.fin q ≤ if q = p then s0.sta p + 1 else s0.sta q
      rw [if_neg hqp]
      exact h0.fin_le_sta q
  · intro q
    by_cases hqp : q = p
    · subst hqp
      show (if q = q then s0.sta q + 1 else s0.sta q) ≤ s0.sub q
      rw [if_pos rfl]
      omega
    · show (if q = p then s0.sta p + 1 else s0.sta q) ≤ s0.sub q
      rw [if_neg hqp]
      exact h0.sta_le_sub q
  · exact h0.sub_le_N
  · exact h0.sub_ge3
  · exact h0.pc_le
  · exact h0.done_full
  · exact h0.sub_pc
  · have f0 := h0.fin_le_sta 0
    have f1 := h0.fin_le_sta 1
    have f2 := h0.fin_le_sta 2
    have hc : inflight s0 < 20 := hcap
    unfold inflight at hc f0 f1 f2 ⊢
    have hp : p = 0 ∨ p = 1 ∨ p = 2 := by omega
    rcases hp with hp | hp | hp <;> subst hp <;> simp <;> omega

theorem inv_finish (N : Nat → Nat) (tr : List Ev) (s0 s1 : St) (p : Nat)
    (h0 : Inv N tr s0) (h : stepOk N s0 (.finish p) = some s1) :
    Inv N (tr ++ [Ev.finish p]) s1 := by
  simp only [stepOk] at h
  have hlt : s0.fin p < s0.sta p := by
    by_contra hng
    rw [if_neg hng] at h
    exact Option.noConfusion h
  have hp3 : p < 3 := by
    by_contra hge
    have h3 := h0.sub_ge3 p (by omega)
    have h4 := h0.sta_le_sub p
    omega
  rw [if_pos hlt] at h
  injection h with h1
  subst h1
  refine ⟨?_, ?_, ?_, ?_, ?_, ?_, ?_, ?_, ?_, ?_, ?_⟩
  · intro q
    simp [count_snoc_eq, h0.count_sub q]
  · intro q
    simp [count_snoc_eq, h0.count_sta q]
  · intro q
    by_cases hqp : q = p
    · subst hqp
      simp [count_snoc_eq, h0.count_fin q]
    · simp [count_snoc_eq, hqp, Ne.symm hqp, h0.count_fin q]
  · intro q
    by_cases hqp : q = p
    · subst hqp
      show (if q = q then s0.fin q + 1 else s0.fin q) ≤ s0.sta q
      rw [if_pos rfl]
      omega
    · show (if q = p then s0.fin p + 1 else s0.fin q) ≤ s0.sta q
      rw [if_neg hqp]
      exact h0.fin_le_sta q
  · exact h0.sta_le_sub
  · exact h0.sub_le_N
  · exact h0.sub_ge3
  · exact h0.pc_le
  · intro q hq
    by_cases hqp : q = p
    · subst hqp
      exfalso
      have hfull := h0.done_full q hq
      have h4 := h0.sta_le_sub q
      omega
    · refine ⟨(h0.done_full q hq).1, ?_⟩
      show (if q = p then s0.fin p + 1 else s0.fin q) = N q
      rw [if_neg hqp]
      exact (h0.done_full q hq).2
  · exact h0.sub_pc
  · have s0le := h0.fin_le_sta p
    have hc := h0.cap
    unfold inflight at hc ⊢
    have hp : p = 0 ∨ p = 1 ∨ p = 2 := by omega
    rcases hp with hp | hp | hp <;> subst hp <;> simp <;> omega

theorem inv_wait (N : Nat → Nat) (tr : List Ev) (s0 s1 : St) (p : Nat)
    (h0 : Inv N tr s0) (h : stepOk N s0 (.waitRet p) = some s1) :
    Inv N (tr ++ [Ev.waitRet p]) s1 := by
  simp only [stepOk] at h
  have hg : p < 3 ∧ s0.pc = p ∧ s0.sub p = N p ∧ s0.fin p = N p := by
    by_contra hng
    rw [if_neg hng] at h
    exact Option.noConfusion h
  obtain ⟨hp3, hpc, hsub, hfin⟩ := hg
  rw [if_pos ⟨hp3, hpc, hsub, hfin⟩] at h
  injection h with h1
  subst h1
  refine ⟨?_, ?_, ?_, ?_, ?_, ?_, ?_, ?_, ?_, ?_, ?_⟩
  · intro q
    simp [count_snoc_eq, h0.count_sub q]
  · intro q
    simp [count_snoc_eq, h0.count_sta q]
  · intro q
    simp [count_snoc_eq, h0.count_fin q]
  · exact h0.fin_le_sta
  · exact h0.sta_le_sub
  · exact h0.sub_le_N
  · exact h0.sub_ge3
  · show p + 1 ≤ 3
    omega
  · intro q hq
    by_cases hqp : q = p
    · subst hqp
      exact ⟨hsub, hfin⟩
    · refine h0.done_full q ?_
      rw [hpc]
      have : q < p + 1 := hq
      omega
  · intro q hq
    have := h0.sub_pc q hq
    rw [hpc] at this
    show q ≤ p + 1
    omega
  · exact h0.cap

theorem inv_step (N : Nat → Nat) (tr : List Ev) (s0 s1 : St) (e : Ev)
    (h0 : Inv N tr s0) (h : stepOk N s0 e = some s1) : Inv N (tr ++ [e]) s1 := by
  cases e with
  | submit p => exact inv_submit N tr s0 s1 p h0 h
  | start p => exact inv_start N tr s0 s1 p h0 h
  | finish p => exact inv_finish N tr s0 s1 p h0 h
  | waitRet p => exact inv_wait N tr s0 s1 p h0 h

theorem runTrace_inv (N : Nat → Nat) (tr : List Ev) :
    ∀ s : St, runTrace N tr = some s → Inv N tr s := by
  induction tr using List.reverseRecOn with
  | nil =>
    intro s h
    have h2 : St.init = s := by
      injection h
    rw [← h2]
    exact inv_init N
  | append_singleton l e ih =>
    intro s h
    rw [runTrace_snoc] at h
    cases hl : runTrace N l with
    | none =>
      rw [hl] at h
      exact Option.noConfusion h
    | some s0 =>
      rw [hl] at h
      have h2 : stepOk N s0 e = some s := h
      exact inv_step N l s0 s e (ih s0 hl) h2

theorem valid_take (N : Nat → Nat) (tr : List Ev) (h : ValidTrace N tr)
    (j : Nat) : (runTrace N (tr.take j)).isSome = true := by
  cases ho : runTrace N (tr.take j) with
  | none =>
    exfalso
    have hsplit : tr = tr.take j ++ tr.drop j := (List.take_append_drop j tr).symm
    have h2 : ValidTrace N (tr.take j ++ tr.drop j) := by
      rw [← hsplit]
      exact h
    have h3 : runTrace N (tr.take j ++ tr.drop j)
        = runFrom N (runTrace N (tr.take j)) (tr.drop j) :=
      runFrom_append N (some St.init) (tr.take j) (tr.drop j)
    rw [ValidTrace, h3, ho, runFrom_none] at h2
    exact Bool.noConfusion h2
  | some s => rfl

theorem step_at (N : Nat → Nat) (tr : List Ev) (j : Nat) (e : Ev)
    (h : ValidTrace N tr) (hj : tr[j]? = some e) :
    ∃ s0 s1, runTrace N (tr.take j) = some s0 ∧ stepOk N s0 e = some s1 := by
  have h1 := valid_take N tr h (j + 1)
  rw [List.take_succ, hj] at h1
  rw [show (some e).toList = [e] from rfl] at h1
  rw [show runTrace N (tr.take j ++ [e])
        = (runTrace N (tr.take j)).bind (fun s => stepOk N s e) from
      runTrace_snoc N (tr.take j) e] at h1
  cases h0 : runTrace N (tr.take j) with
  | none =>
    rw [h0] at h1
    exact Bool.noConfusion h1
  | some s0 =>
    rw [h0] at h1
    have h2 : (stepOk N s0 e).isSome = true := h1
    cases h3 : stepOk N s0 e with
    | none =>
      rw [h3] at h2
      exact Bool.noConfusion h2
    | some s1 => exact ⟨s0, s1, rfl, h3⟩

/-- Claim C1: phases run strictly in order — when an invocation of batch
`p + 1` is issued (submitted by the main thread, or started by a worker) at
position `j` of a valid schedule, all `batchSize (rs p)` invocations of
batch `p` have already finished strictly before `j`. With `p = 0` this is
"every add-order invocation completes before any query-orders invocation is
issued"; with `p = 1`, "every query-orders invocation completes before any
remove-item invocation is issued". -/
theorem c1_phase_ordering (rs : Nat → Nat) (tr : List Ev) (j p : Nat)
    (h : ValidTrace (fun q => batchSize (rs q)) tr) (hp : p < 2)
    (hj : tr[j]? = some (.submit (p + 1)) ∨ tr[j]? = some (.start (p + 1))) :
    countE (tr.take j) (.finish p) = batchSize (rs p) := by
  rcases hj with hj | hj
  · obtain ⟨s0, s1, h0, hstep⟩ := step_at _ tr j _ h hj
    have hinv := runTrace_inv _ (tr.take j) s0 h0
    simp only [stepOk] at hstep
    have hg : p + 1 < 3 ∧ s0.pc = p + 1 ∧ s0.sub (p + 1) < batchSize (rs (p + 1)) := by
      by_contra hng
      rw [if_neg hng] at hstep
      exact Option.noConfusion hstep
    have hfin := (hinv.done_full p (by omega)).2
    rw [← hinv.count_fin p]
    exact hfin
  · obtain ⟨s0, s1, h0, hstep⟩ := step_at _ tr j _ h hj
    have hinv := runTrace_inv _ (tr.take j) s0 h0
    simp only [stepOk] at hstep
    have hg : s0.sta (p + 1) < s0.sub (p + 1) ∧ inflight s0 < 20 := by
      by_contra hng
      rw [if_neg hng] at hstep
      exact Option.noConfusion hstep
    have hpc : p + 1 ≤ s0.pc := hinv.sub_pc (p + 1) (by omega)
    have hfin := (hinv.done_full p (by omega)).2
    rw [← hinv.count_fin p]
    exact hfin

/-- Claim C2: the dispatcher drains each batch — when
`concurrent.futures.wait` for batch `p` returns at position `j` of a valid
schedule, all `batchSize (rs p)` submitted invocations of the batch have
completed before `j`: the finish count equals the submit count equals the
batch size, so no invocation of the batch is still pending when the next
statement runs. -/
theorem c2_wait_drains_batch (rs : Nat → Nat) (tr : List Ev) (j p : Nat)
    (h : ValidTrace (fun q => batchSize (rs q)) tr)
    (hj : tr[j]? = some (.waitRet p)) :
    countE (tr.take j) (.submit p) = batchSize (rs p) ∧
    countE (tr.take j) (.finish p) = batchSize (rs p) := by
  obtain ⟨s0, s1, h0, hstep⟩ := step_at _ tr j _ h hj
  have hinv := runTrace_inv _ (tr.take j) s0 h0
  simp only [stepOk] at hstep
  have hg : p < 3 ∧ s0.pc = p ∧ s0.sub p = batchSize (rs p) ∧
      s0.fin p = batchSize (rs p) := by
    by_contra hng
    rw [if_neg hng] at hstep
    exact Option.noConfusion hstep
  obtain ⟨hp3, hpc, hsub, hfin⟩ := hg
  constructor
  · rw [← hinv.count_sub p]
    exact hsub
  · rw [← hinv.count_fin p]
    exact hfin

/-- Invocations in flight after a trace: starts minus finishes per batch. -/
def inflightOf (u : List Ev) : Nat :=
  (countE u (.start 0) - countE u (.finish 0)) +
  (countE u (.start 1) - countE u (.finish 1)) +
  (countE u (.start 2) - countE u (.finish 2))

/-- Claim C9: at every instant of a valid schedule (after any prefix of any
valid trace) at most 20 invocations are in flight — the single
`ThreadPoolExecutor(max_workers=20)` caps concurrency across all three
batches. -/
theorem c9_concurrency_cap (rs : Nat → Nat) (tr : List Ev) (j : Nat)
    (h : ValidTrace (fun q => batchSize (rs q)) tr) :
    inflightOf (tr.take j) ≤ 20 := by
  have hs := valid_take _ tr h j
  cases h0 : runTrace (fun q => batchSize (rs q)) (tr.take j) with
  | none =>
    rw [h0] at hs
    exact Bool.noConfusion hs
  | some s0 =>
    have hinv := runTrace_inv _ (tr.take j) s0 h0
    have hcap := hinv.cap
    unfold inflight at hcap
    unfold inflightOf
    rw [← hinv.count_sta 0, ← hinv.count_sta 1, ← hinv.count_sta 2,
      ← hinv.count_fin 0, ← hinv.count_fin 1, ← hinv.count_fin 2]
    exact hcap

/-- A concrete complete schedule used to instantiate the batch theorems:
three batches of 10 invocations each run to completion in order. -/
def wRun : List Ev :=
  (List.replicate 10 (Ev.submit 0) ++ List.replicate 10 (Ev.start 0) ++
    List.replicate 10 (Ev.finish 0) ++ [Ev.waitRet 0]) ++
  (List.replicate 10 (Ev.submit 1) ++ List.replicate 10 (Ev.start 1) ++
    List.replicate 10 (Ev.finish 1) ++ [Ev.waitRet 1]) ++
  (List.replicate 10 (Ev.submit 2) ++ List.replicate 10 (Ev.start 2) ++
    List.replicate 10 (Ev.finish 2) ++ [Ev.waitRet 2])

/-- Instance of `c1_phase_ordering` on the concrete schedule `wRun`: the
query batch's first submit sits at position 31, by which point all 10 add
invocations have finished. -/
theorem c1_phase_ordering_witness :
    countE (wRun.take 31) (Ev.finish 0) = batchSize 0 :=
  c1_phase_ordering (fun _ => 0) wRun 31 0 (by decide) (by decide)
    (Or.inl (by decide))

/-- Instance of `c2_wait_drains_batch` on `wRun`: the first barrier returns
at position 30 with all 10 submitted add invocations finished. -/
theorem c2_wait_drains_batch_witness :
    countE (wRun.take 30) (Ev.submit 0) = batchSize 0 ∧
    countE (wRun.take 30) (Ev.finish 0) = batchSize 0 :=
  c2_wait_drains_batch (fun _ => 0) wRun 30 0 (by decide) (by decide)

/-- Instance of `c9_concurrency_cap` on `wRun` after 15 events. -/
theorem c9_concurrency_cap_witness : inflightOf (wRun.take 15) ≤ 20 :=
  c9_concurrency_cap (fun _ => 0) wRun 15 (by decide)

end Resto
